import Mathlib

/-!
# Verification of the request-processing pipeline of `comment-django`

A shallow embedding of `src/core/handlers/base.py` (class `BaseHandler`):
the middleware registry (`load_middleware`), the dispatch engine
(`get_response`), the uncaught-exception translator
(`handle_uncaught_exception`, `get_exception_response`) and response
post-processing (`apply_response_fixes`).

Python exceptions are embedded as an explicit `Exc` sum type and fallible
calls return `Except Exc _`.  A Python value that may be `None`, a falsy
object or a truthy object is embedded as `Option Response`, with
truthiness given by `isTruthy` (`none` embeds Python `None`).  Every call
the engine makes into a hook, the resolver or the rendering machinery is
recorded in an `Event` trace so that claims of the form "X is never
invoked" / "invoked exactly once" are statements about the trace.

Collaborator code that is referenced by `base.py` but is not part of this
excerpt (`django.views.debug` diagnostic responses, the two response-fix
functions from `django.http`, the URL resolver object) is modelled from
the specification; each such definition carries a doc comment starting
with `Modelled from the spec:`.
-/

namespace CommentDjango

/-- Embedded Python exception classification, following the `except` clauses
of `BaseHandler.get_response` (base.py lines 187-242).  `systemExit` is the
only constructor that embeds a `BaseException` which is *not* an
`Exception` (so Python's `except Exception` does not catch it);
`valueError` is the `ValueError` the engine itself raises for `None`
returns; `other` embeds any remaining uncaught exception. -/
inductive Exc where
  | http404
  | permissionDenied
  | multiPartParserError
  | suspiciousOperation
  | systemExit
  | valueError
  | other (tag : Nat)
  deriving DecidableEq, Repr

/-- Whether the embedded exception is caught by Python's `except Exception`
(base.py line 151).  `SystemExit` derives from `BaseException` only. -/
def Exc.isException : Exc → Bool
  | .systemExit => false
  | _ => true

/-- A redirect target: Python's `Location` header value, either already
absolute or still relative. -/
inductive Location where
  | absolute (u : String)
  | relative (u : String)
  deriving DecidableEq, Repr

/-- Embedded response object.  `truthy` is the Python truthiness of the
value (`if response:` at base.py lines 121, 142, 157); `hasRender` embeds
`hasattr(response, 'render') and callable(response.render)` (line 175).
A non-`Response` Python return value (e.g. an empty string) is embedded as
a `Response` with the appropriate truthiness. -/
structure Response where
  truthy : Bool := true
  status : Nat := 200
  hasRender : Bool := false
  location : Option Location := Option.none
  content : String := ""
  deriving DecidableEq, Repr

/-- Embedded request: only the attributes `get_response` reads. `urlconf`
embeds the optional per-request `request.urlconf` override (line 126). -/
structure Request where
  pathInfo : String := "/"
  method : String := "GET"
  host : String := "testserver"
  urlconf : Option String := Option.none
  deriving DecidableEq, Repr

/-- Python truthiness of a hook's return value: `None` is falsy, any other
value has the truthiness of the object. -/
def isTruthy : Option Response → Bool
  | Option.none => false
  | some r => r.truthy

/-- The resolved route: `resolver.resolve(...)` yields
`(callback, callback_args, callback_kwargs)` (line 134); `run` embeds
calling the wrapped callback on the request with those arguments
(line 150), returning `None`, a response, or raising. The transaction
wrapper `make_view_atomic` (lines 82-90) is an external collaborator
(spec §4.3) and does not alter the call's value. -/
structure RouteMatch where
  run : Request → Except Exc (Option Response)

/-- Modelled from the spec: the Route Resolver contract
(`django.core.urlresolvers.RegexURLResolver`, not under src/).
`resolve path` returns a `RouteMatch` or raises (`Http404` on no match);
`errorHandler code` embeds `resolve_error_handler(code)` followed by
calling the returned callback on the request (base.py lines 95-96,
297-298), either of which may raise; `urlconfModule` embeds
`resolver.urlconf_module is not None` (line 294). -/
structure Resolver where
  resolve : String → Except Exc RouteMatch
  errorHandler : Nat → Except Exc Response
  urlconfModule : Bool

/-- The configuration flags `get_response` and
`handle_uncaught_exception` read from `django.conf.settings`. -/
structure Settings where
  debug : Bool := false
  debugPropagateExceptions : Bool := false
  rootUrlconf : String := "urls"

/-- Trace of observable calls the dispatch engine makes.  Hook events
carry the index of the hook within its list. -/
inductive Event where
  | reqHook (i : Nat)
  | resolveCall
  | viewHook (i : Nat)
  | handlerCall
  | excHook (i : Nat)
  | tmplHook (i : Nat)
  | renderCall
  | respHook (i : Nat)
  | errHandlerCall (code : Nat)
  | logWarn
  | logErrorSev
  | logSecurity
  | signalSent
  | technical404
  | technical500 (status : Nat)
  deriving DecidableEq, Repr

/-- Events that witness route resolution, a view-hook call or the handler
invocation (the calls claim C1/C10 say must not happen). -/
def Event.isResolutionCall : Event → Bool
  | .resolveCall => true
  | .viewHook _ => true
  | .handlerCall => true
  | _ => false

/-- Events that witness a request-hook call. -/
def Event.isReqHook : Event → Bool
  | .reqHook _ => true
  | _ => false

/-- The full environment of one `BaseHandler` plus its collaborators: the
settings, the resolver factory (`RegexURLResolver(r'^/', urlconf)` for a
given urlconf name, line 115/131), the five loaded middleware hook lists,
and the behaviour of `response.render()` (line 184). -/
structure Env where
  settings : Settings
  resolverFor : String → Resolver
  requestMw : List (Request → Except Exc (Option Response))
  viewMw : List (Request → RouteMatch → Except Exc (Option Response))
  templateMw : List (Request → Response → Except Exc (Option Response))
  responseMw : List (Request → Response → Except Exc (Option Response))
  exceptionMw : List (Request → Exc → Except Exc (Option Response))
  render : Request → Response → Except Exc Response

/-- Modelled from the spec: `django.views.debug.technical_404_response`
(not under src/), "a developer-facing diagnostic response" for NotFound. -/
def technical404Response : Response :=
  { status := 404, content := "technical404" }

/-- Modelled from the spec: `django.views.debug.technical_500_response`
(not under src/), "a full diagnostic response" carrying the given status
(500 for uncaught failures, 400 for suspicious operations). -/
def technical500Response (status : Nat) : Response :=
  { status := status, content := "technical500" }

/-- Modelled from the spec: `django.http.fix_location_header`
(not under src/), "normalizing a redirect's address into an absolute
form" against the request's host. -/
def absolutize (req : Request) : Location → Location
  | .absolute u => .absolute u
  | .relative u => .absolute (req.host ++ u)

/-- Modelled from the spec: the first response fix from `django.http`
(not under src/): absolutize the `Location` header when present. -/
def fix_location_header (req : Request) (r : Response) : Response :=
  match r.location with
  | Option.none => r
  | some loc => { r with location := some (absolutize req loc) }

/-- Modelled from the spec: `django.http.conditional_content_removal`
(not under src/), "stripping a body when the status code forbids one"
(informational, 204 and 304 statuses) and for HEAD requests. -/
def conditional_content_removal (req : Request) (r : Response) : Response :=
  let r1 :=
    if (100 ≤ r.status && r.status < 200) || r.status == 204 || r.status == 304 then
      { r with content := "" }
    else r
  if req.method == "HEAD" then { r1 with content := "" } else r1

/-- `BaseHandler.response_fixes` (base.py lines 26-29): the fixed, ordered
transform sequence. -/
def response_fixes : List (Request → Response → Response) :=
  [fix_location_header, conditional_content_removal]

/-- `BaseHandler.apply_response_fixes` (base.py lines 300-308): fold the
fixes over the response in order. -/
def apply_response_fixes (req : Request) (r : Response) : Response :=
  response_fixes.foldl (fun acc f => f req acc) r

/-- The break-on-truthy hook loop shared by request-, view- and
exception-middleware (base.py lines 119-122, 140-143, 155-158):
`response = mw(...); if response: break`.  The hook results are
pre-applied (the loop's fixed arguments do not change between
iterations); `mk` tags the trace events, `k` is the index of the first
hook, `acc` the current value of the `response` variable. -/
def breakLoop (mk : Nat → Event) :
    List (Except Exc (Option Response)) → Nat → Option Response →
    Except Exc (Option Response) × List Event
  | [], _, acc => (.ok acc, [])
  | x :: rest, k, _acc =>
    match x with
    | .error e => (.error e, [mk k])
    | .ok v =>
      if isTruthy v then (.ok v, [mk k])
      else
        let t := breakLoop mk rest (k + 1) v
        (t.1, mk k :: t.2)

/-- The transform-all hook loop shared by template-response- and
response-middleware (base.py lines 176-183, 247-254): every hook runs,
each feeding the next, and a `None` return raises `ValueError`. -/
def chainLoop (mk : Nat → Event) :
    List (Response → Except Exc (Option Response)) → Nat → Response →
    Except Exc Response × List Event
  | [], _, r => (.ok r, [])
  | f :: rest, k, r =>
    match f r with
    | .error e => (.error e, [mk k])
    | .ok Option.none => (.error .valueError, [mk k])
    | .ok (some r') =>
      let t := chainLoop mk rest (k + 1) r'
      (t.1, mk k :: t.2)

/-- The request-middleware loop (base.py lines 119-122). -/
def runReqHooks (env : Env) (req : Request) :
    Except Exc (Option Response) × List Event :=
  breakLoop Event.reqHook (env.requestMw.map (fun g => g req)) 0 Option.none

/-- The view-middleware loop (base.py lines 140-143). -/
def runViewHooks (env : Env) (req : Request) (rm : RouteMatch) :
    Except Exc (Option Response) × List Event :=
  breakLoop Event.viewHook (env.viewMw.map (fun g => g req rm)) 0 Option.none

/-- The exception-middleware loop (base.py lines 155-158). -/
def runExcHooks (env : Env) (req : Request) (e : Exc) :
    Except Exc (Option Response) × List Event :=
  breakLoop Event.excHook (env.exceptionMw.map (fun g => g req e)) 0 Option.none

/-- The template-response-middleware loop (base.py lines 176-183). -/
def runTmplHooks (env : Env) (req : Request) (r : Response) :
    Except Exc Response × List Event :=
  chainLoop Event.tmplHook (env.templateMw.map (fun g => g req)) 0 r

/-- The response-middleware loop (base.py lines 247-254). -/
def runRespHooks (env : Env) (req : Request) (r : Response) :
    Except Exc Response × List Event :=
  chainLoop Event.respHook (env.responseMw.map (fun g => g req)) 0 r

/-- `BaseHandler.handle_uncaught_exception` (base.py lines 266-298):
re-raise when `DEBUG_PROPAGATE_EXCEPTIONS` is set; otherwise log at error
severity, then return the debug diagnostic, or re-raise when no urlconf
module is installed, or call the 500 error handler (whose own failure
propagates, lines 297-298 are outside any `try`). -/
def handle_uncaught_exception (env : Env) (res : Resolver) (e : Exc) :
    Except Exc Response × List Event :=
  if env.settings.debugPropagateExceptions then (.error e, [])
  else if env.settings.debug then
    (.ok (technical500Response 500), [.logErrorSev, .technical500 500])
  else if res.urlconfModule = false then (.error e, [.logErrorSev])
  else (res.errorHandler 500, [.logErrorSev, .errHandlerCall 500])

/-- `BaseHandler.get_exception_response` (base.py lines 92-101): call the
resolved error handler; if that raises, send the exception signal and fall
back to `handle_uncaught_exception` with the *new* exception. -/
def get_exception_response (env : Env) (res : Resolver) (code : Nat) :
    Except Exc Response × List Event :=
  match res.errorHandler code with
  | .ok r => (.ok r, [.errHandlerCall code])
  | .error e' =>
    let h := handle_uncaught_exception env res e'
    (h.1, [.errHandlerCall code, .signalSent] ++ h.2)

/-- Outcome of the `except` clauses of `get_response`: `ret` is the
immediate `return` (suspicious operation in debug mode, line 230, which
skips the response-middleware phase); `cont` continues into the
response-middleware phase; `raise` propagates out of `get_response`. -/
inductive TOut where
  | ret (r : Response)
  | cont (r : Response)
  | raise (e : Exc)
  deriving Repr

/-- Lift the result of a translation helper into a `TOut`. -/
def liftT : Except Exc Response → TOut
  | .ok r => .cont r
  | .error e => .raise e

/-- The `except` clauses of `get_response` (base.py lines 187-242):
classification of the escaped exception and translation to a response.
`Http404` in debug returns the technical 404 page, otherwise the 404
handler runs; `PermissionDenied` / `MultiPartParserError` delegate to the
403 / 400 handlers; `SuspiciousOperation` logs to the security channel
and in debug *returns* the technical 500 page with status 400;
`SystemExit` is re-raised; everything else signals and goes through
`handle_uncaught_exception`. -/
def translate (env : Env) (res : Resolver) (e : Exc) : TOut × List Event :=
  match e with
  | .http404 =>
    if env.settings.debug then
      (.cont technical404Response, [.logWarn, .technical404])
    else
      let t := get_exception_response env res 404
      (liftT t.1, .logWarn :: t.2)
  | .permissionDenied =>
    let t := get_exception_response env res 403
    (liftT t.1, .logWarn :: t.2)
  | .multiPartParserError =>
    let t := get_exception_response env res 400
    (liftT t.1, .logWarn :: t.2)
  | .suspiciousOperation =>
    if env.settings.debug then
      (.ret (technical500Response 400), [.logSecurity, .technical500 400])
    else
      let t := get_exception_response env res 400
      (liftT t.1, .logSecurity :: t.2)
  | .systemExit => (.raise .systemExit, [])
  | e =>
    let t := handle_uncaught_exception env res e
    (liftT t.1, .signalSent :: t.2)

/-- The deferred-rendering step (base.py lines 175-184): when the response
supports deferred rendering, run all template-response hooks (a `None`
return raises `ValueError`) and then call `render()`. -/
def renderPhase (env : Env) (req : Request) (r : Response) :
    Except Exc Response × List Event :=
  if r.hasRender then
    match runTmplHooks env req r with
    | (.error e, t) => (.error e, t)
    | (.ok r', t) =>
      match env.render req r' with
      | .ok r2 => (.ok r2, t ++ [.renderCall])
      | .error e => (.error e, t ++ [.renderCall])
  else (.ok r, [])

/-- The handler-invocation step (base.py lines 147-160): call the view;
if it raises an `Exception` (not `SystemExit`), run the exception hooks,
breaking on the first truthy return; if the final value of `response` is
`None`, re-raise the original exception. -/
def invokePhase (env : Env) (req : Request) (rm : RouteMatch) :
    Except Exc (Option Response) × List Event :=
  match rm.run req with
  | .ok v => (.ok v, [.handlerCall])
  | .error e =>
    if e.isException then
      match runExcHooks env req e with
      | (.error e2, te) => (.error e2, .handlerCall :: te)
      | (.ok Option.none, te) => (.error e, .handlerCall :: te)
      | (.ok (some r), te) => (.ok (some r), .handlerCall :: te)
    else (.error e, [.handlerCall])

/-- Resolution onwards (base.py lines 126-170), entered only when the
request-middleware loop left `response` as `None`: rebuild the resolver
from `request.urlconf` when present, resolve the path (raising `Http404`
on no match), run the view hooks, invoke the handler when still no
response, and raise `ValueError` when the handler returned `None`
(lines 164-170).  Every exit feeds the deferred-rendering step. -/
def dispatchResolve (env : Env) (req : Request) (res0 : Resolver)
    (t : List Event) : Except Exc Response × Resolver × List Event :=
  let res1 := match req.urlconf with
    | some u => env.resolverFor u
    | Option.none => res0
  match res1.resolve req.pathInfo with
  | .error e => (.error e, res1, t ++ [.resolveCall])
  | .ok rm =>
    match runViewHooks env req rm with
    | (.error e, tv) => (.error e, res1, t ++ .resolveCall :: tv)
    | (.ok (some r), tv) =>
      let pr := renderPhase env req r
      (pr.1, res1, t ++ .resolveCall :: tv ++ pr.2)
    | (.ok Option.none, tv) =>
      match invokePhase env req rm with
      | (.error e, ti) => (.error e, res1, t ++ .resolveCall :: tv ++ ti)
      | (.ok Option.none, ti) =>
        (.error .valueError, res1, t ++ .resolveCall :: tv ++ ti)
      | (.ok (some r), ti) =>
        let pr := renderPhase env req r
        (pr.1, res1, t ++ .resolveCall :: tv ++ ti ++ pr.2)

/-- The body of the first `try` of `get_response` (base.py lines 116-184):
run the request hooks; a non-`None` final value (truthy short-circuit or
falsy non-`None` value) skips resolution, view hooks and the handler and
goes straight to deferred rendering; a `None` value continues with
resolution.  Also returns the resolver in scope when the `try` exits
(the `except` clauses use it). -/
def dispatchPhase (env : Env) (req : Request) :
    Except Exc Response × Resolver × List Event :=
  let res0 := env.resolverFor env.settings.rootUrlconf
  match runReqHooks env req with
  | (.error e, t) => (.error e, res0, t)
  | (.ok (some r), t) =>
    let pr := renderPhase env req r
    (pr.1, res0, t ++ pr.2)
  | (.ok Option.none, t) => dispatchResolve env req res0 t

/-- The response-middleware phase plus post-processing (base.py lines
244-259): run every response hook in order (a `None` return raises
`ValueError`), apply the response fixes, and on *any* exception (the
bare `except:` on line 257, which also catches `SystemExit`) send the
signal and fall back to `handle_uncaught_exception`. -/
def responsePhase (env : Env) (req : Request) (res : Resolver)
    (r : Response) : Except Exc Response × List Event :=
  match runRespHooks env req r with
  | (.ok r', t) => (.ok (apply_response_fixes req r'), t)
  | (.error e, t) =>
    let h := handle_uncaught_exception env res e
    (h.1, t ++ .signalSent :: h.2)

/-- Continuation of `get_response` after the first `try`: a normal result
enters the response-middleware phase; an escaped exception is translated,
and the translation either returns immediately (skipping the response
hooks), continues into the response-middleware phase, or propagates. -/
def finishResponse (env : Env) (req : Request) (res : Resolver) :
    Except Exc Response × List Event → Except Exc Response × List Event
  | (.ok r, t) =>
    let f := responsePhase env req res r
    (f.1, t ++ f.2)
  | (.error e, t) =>
    match translate env res e with
    | (.ret r, t2) => (.ok r, t ++ t2)
    | (.raise e', t2) => (.error e', t ++ t2)
    | (.cont r, t2) =>
      let f := responsePhase env req res r
      (f.1, t ++ t2 ++ f.2)

/-- `BaseHandler.get_response` (base.py lines 103-264): the full dispatch
pipeline for one request. -/
def get_response (env : Env) (req : Request) :
    Except Exc Response × List Event :=
  let d := dispatchPhase env req
  finishResponse env req d.2.1 (d.1, d.2.2)

/-- One configured middleware entry as `load_middleware` observes it:
whether `import_string` succeeds, whether the constructor raises
`MiddlewareNotUsed`, and which of the five capability hooks the instance
has (base.py lines 51-74). -/
structure MwDef where
  importOk : Bool := true
  notUsed : Bool := false
  hasReq : Bool := false
  hasView : Bool := false
  hasTmpl : Bool := false
  hasResp : Bool := false
  hasExc : Bool := false
  deriving DecidableEq, Repr

/-- The five hook lists, identifying each hook by the configuration index
of the middleware that contributed it. -/
structure HookSet where
  requestMw : List Nat
  viewMw : List Nat
  templateMw : List Nat
  responseMw : List Nat
  exceptionMw : List Nat
  deriving DecidableEq, Repr

/-- The handler's middleware attributes as an observer sees them:
`__init__` sets all five to `None` (base.py lines 31-37);
`load_middleware` sets four of them to mutable empty lists up front
(lines 45-48) and assigns `_request_middleware` only at the very end
(line 79). -/
structure HandlerMwState where
  requestMw : Option (List Nat)
  viewMw : Option (List Nat)
  templateMw : Option (List Nat)
  responseMw : Option (List Nat)
  exceptionMw : Option (List Nat)
  deriving DecidableEq, Repr

/-- The state right after `BaseHandler.__init__` (base.py lines 31-37). -/
def initState : HandlerMwState :=
  ⟨Option.none, Option.none, Option.none, Option.none, Option.none⟩

/-- The state right after the four assignments opening `load_middleware`
(base.py lines 45-48): the four eager lists are reset to empty while
`_request_middleware` is still unset. -/
def resetState : HandlerMwState :=
  ⟨Option.none, some [], some [], some [], some []⟩

/-- The in-place mutations one successfully constructed middleware applies
to the handler's lists (base.py lines 65-74): `append` for view hooks,
`insert(0, ...)` for template-response, response and exception hooks.
A `MiddlewareNotUsed` constructor leaves the state unchanged (line 63). -/
def mwApply (i : Nat) (m : MwDef) (s : HandlerMwState) : HandlerMwState :=
  if m.notUsed then s
  else
    { s with
      viewMw := s.viewMw.map (fun l => l ++ if m.hasView then [i] else []),
      templateMw := s.templateMw.map (fun l => (if m.hasTmpl then [i] else []) ++ l),
      responseMw := s.responseMw.map (fun l => (if m.hasResp then [i] else []) ++ l),
      exceptionMw := s.exceptionMw.map (fun l => (if m.hasExc then [i] else []) ++ l) }

/-- The contribution of one middleware to the *local* variable
`request_middleware` (base.py lines 50, 65-66). -/
def mwReqAdd (i : Nat) (m : MwDef) (acc : List Nat) : List Nat :=
  if m.notUsed then acc else acc ++ if m.hasReq then [i] else []

/-- The `load_middleware` loop: returns the list of handler states
observable after each loop iteration, whether loading completed, and the
resting state.  A failing `import_string` (line 53) aborts the loop with
the exception propagating, leaving the current state in place and
`_request_middleware` unset; on completion the local accumulator is
published as `_request_middleware` (line 79). -/
def loadAux : List MwDef → Nat → HandlerMwState → List Nat →
    List HandlerMwState × Bool × HandlerMwState
  | [], _, s, acc =>
    let fin := { s with requestMw := some acc }
    ([fin], true, fin)
  | m :: rest, i, s, acc =>
    if m.importOk then
      let s' := mwApply i m s
      let t := loadAux rest (i + 1) s' (mwReqAdd i m acc)
      (s' :: t.1, t.2.1, t.2.2)
    else ([], false, s)

/-- All states of the handler observable during one `load_middleware` run
(the post-`__init__` state, the post-reset state, and the state after each
loop iteration, ending with the published state on success). -/
def loadTrace (cfg : List MwDef) : List HandlerMwState :=
  initState :: resetState :: (loadAux cfg 0 resetState []).1

/-- `BaseHandler.load_middleware` (base.py lines 39-79) as a function from
the configured middleware list to the final hook set, `none` when some
middleware fails to import. -/
def load_middleware (cfg : List MwDef) : Option HookSet :=
  match loadAux cfg 0 resetState [] with
  | (_, true, fin) =>
    some ⟨fin.requestMw.getD [], fin.viewMw.getD [], fin.templateMw.getD [],
          fin.responseMw.getD [], fin.exceptionMw.getD []⟩
  | (_, false, _) => Option.none

/-- Written from the spec's words ("preserve configuration order"): the
configuration indices, in configuration order, of the middleware that are
used (not `MiddlewareNotUsed`) and have capability `p`, starting at
index `i`.  This is the spec-side ordering that `load_middleware` is
compared against. -/
def configOrderIds (p : MwDef → Bool) : List MwDef → Nat → List Nat
  | [], _ => []
  | m :: rest, i =>
    (if !m.notUsed && p m then [i] else []) ++ configOrderIds p rest (i + 1)

/-! ## Concrete instances used to exercise the theorems -/

/-- A plain truthy 200 response. -/
def okR : Response := {}

/-- A falsy but non-`None` return value (e.g. Python's empty string). -/
def falsyR : Response := { truthy := false, content := "falsy" }

/-- The response produced by the configured error handler for a code. -/
def handlerResp (c : Nat) : Response := { status := c, content := "errhandler" }

/-- A resolver whose `resolve` raises if it is ever called (the spec's
"verify via a resolver that would raise if called"), with working error
handlers and an installed urlconf module. -/
def stdResolver : Resolver :=
  ⟨fun _ => .error (.other 99), fun c => .ok (handlerResp c), true⟩

/-- The default request. -/
def reqW : Request := {}

/-- A request hook returning Python `None`. -/
def hookNone : Request → Except Exc (Option Response) := fun _ => .ok Option.none

/-- A request hook returning a truthy response. -/
def hookOk : Request → Except Exc (Option Response) := fun _ => .ok (some okR)

/-- A request hook returning a falsy non-`None` value. -/
def hookFalsy : Request → Except Exc (Option Response) := fun _ => .ok (some falsyR)

/-- An environment with no middleware at all. -/
def baseEnv : Env :=
  { settings := {}
    resolverFor := fun _ => stdResolver
    requestMw := []
    viewMw := []
    templateMw := []
    responseMw := []
    exceptionMw := []
    render := fun _ r => .ok r }

/-- C1 scenario: first request hook returns `None`, second returns a
truthy response. -/
def envC1 : Env := { baseEnv with requestMw := [hookNone, hookOk] }

/-- C3 scenario (a): two well-behaved response hooks. -/
def envC3a : Env :=
  { baseEnv with
    responseMw := [fun _ x => .ok (some { x with content := "a" }),
                   fun _ x => .ok (some { x with content := "b" })] }

/-- C3 scenario (b): a response hook that returns `None`, in debug mode. -/
def envC3b : Env :=
  { baseEnv with
    settings := { debug := true }
    responseMw := [fun _ x => .ok (some { x with content := "a" }),
                   fun _ _ => .ok Option.none] }

/-- C4 scenario: the only request hook raises the SystemExit-equivalent. -/
def envC4a : Env := { baseEnv with requestMw := [fun _ => .error .systemExit] }

/-- C4 counterexample scenario: a request hook short-circuits with a
normal response and the only response hook raises the
SystemExit-equivalent. -/
def envC4c : Env :=
  { baseEnv with
    requestMw := [hookOk]
    responseMw := [fun _ _ => .error .systemExit] }

/-- A route whose handler raises the SystemExit-equivalent. -/
def rmSysExit : RouteMatch := ⟨fun _ => .error .systemExit⟩

/-- A route whose handler raises a plain uncaught exception. -/
def rmRaise7 : RouteMatch := ⟨fun _ => .error (.other 7)⟩

/-- C5 counterexample scenario: the propagate-exceptions flag is set. -/
def envC5 : Env := { baseEnv with settings := { debugPropagateExceptions := true } }

/-- C5 witness scenario: debug mode, propagate off. -/
def envC5w : Env := { baseEnv with settings := { debug := true } }

/-- C6 scenario: first exception hook returns `None`, second returns a
truthy response. -/
def envC6w : Env :=
  { baseEnv with
    exceptionMw := [fun _ _ => .ok Option.none, fun _ _ => .ok (some okR)] }

/-- C6 scenario: a single exception hook returning `None`. -/
def envC6n : Env :=
  { baseEnv with exceptionMw := [fun _ _ => .ok Option.none] }

/-- C6 counterexample scenario: a single exception hook returning a falsy
non-`None` value. -/
def envC6c : Env :=
  { baseEnv with exceptionMw := [fun _ _ => .ok (some falsyR)] }

/-- C2 witness configuration: two middleware with all five hooks. -/
def cfgC2 : List MwDef :=
  [{ hasReq := true, hasView := true, hasTmpl := true, hasResp := true, hasExc := true },
   { hasReq := true, hasView := true, hasTmpl := true, hasResp := true, hasExc := true }]

/-- C8 counterexample configuration: two middleware with view hooks. -/
def cfgC8 : List MwDef := [{ hasView := true }, { hasView := true }]

/-- The handler state observable after `load_middleware` has processed the
first middleware of `cfgC8` but not the second. -/
def midStateC8 : HandlerMwState :=
  ⟨Option.none, some [0], some [], some [], some []⟩

/-- C10 scenario: first request hook returns `None`, the last returns a
falsy non-`None` value. -/
def envC10 : Env := { baseEnv with requestMw := [hookNone, hookFalsy] }

/-! ## Helper lemmas about the hook loops -/

theorem mem_range'_map {mk : Nat → Event} {k n : Nat} {ev : Event}
    (h : ev ∈ (List.range' k n).map mk) : ∃ i, k ≤ i ∧ i < k + n ∧ ev = mk i := by
  rcases List.mem_map.mp h with ⟨i, hi, rfl⟩
  rcases List.mem_range'_1.mp hi with ⟨h1, h2⟩
  exact ⟨i, h1, h2, rfl⟩

theorem breakLoop_falsy_prefix (mk : Nat → Event)
    (rs : List (Except Exc (Option Response))) :
    ∀ (post : List (Except Exc (Option Response))) (k : Nat) (acc : Option Response),
    (∀ x ∈ rs, ∃ v, x = .ok v ∧ isTruthy v = false) →
    ∃ acc', breakLoop mk (rs ++ post) k acc =
      ((breakLoop mk post (k + rs.length) acc').1,
       (List.range' k rs.length).map mk ++ (breakLoop mk post (k + rs.length) acc').2) := by
  induction rs with
  | nil =>
    intro post k acc _
    exact ⟨acc, by simp⟩
  | cons x rest ih =>
    intro post k acc hall
    rcases hall x (by simp) with ⟨v, hx, hv⟩
    subst hx
    rcases ih post (k + 1) v (fun y hy => hall y (by simp [hy])) with ⟨acc', heq⟩
    refine ⟨acc', ?_⟩
    have hlen : k + (List.length rest + 1) = (k + 1) + List.length rest := by omega
    simp only [List.cons_append, breakLoop, hv, List.length_cons, hlen, heq,
      List.range', Bool.false_eq_true, if_false, List.map_cons]
    simp [heq]

theorem breakLoop_all_none (mk : Nat → Event)
    (l : List (Except Exc (Option Response))) :
    ∀ (k : Nat), (∀ x ∈ l, x = .ok Option.none) →
    breakLoop mk l k Option.none =
      (.ok Option.none, (List.range' k l.length).map mk) := by
  induction l with
  | nil => intro k _; simp [breakLoop]
  | cons x rest ih =>
    intro k hall
    have hx := hall x (by simp)
    subst hx
    have := ih (k + 1) (fun y hy => hall y (by simp [hy]))
    simp [breakLoop, isTruthy, this, List.range']

theorem breakLoop_events (mk : Nat → Event)
    (l : List (Except Exc (Option Response))) :
    ∀ (k : Nat) (acc : Option Response) (ev : Event),
    ev ∈ (breakLoop mk l k acc).2 → ∃ i, ev = mk i := by
  induction l with
  | nil => intro k acc ev h; simp [breakLoop] at h
  | cons x rest ih =>
    intro k acc ev h
    match x with
    | .error e => simp [breakLoop] at h; exact ⟨k, h⟩
    | .ok v =>
      rcases Bool.eq_false_or_eq_true (isTruthy v) with hv | hv
      · simp [breakLoop, hv] at h; exact ⟨k, h⟩
      · simp [breakLoop, hv] at h
        rcases h with h | h
        · exact ⟨k, h⟩
        · exact ih (k + 1) v ev h

theorem chainLoop_all_good (mk : Nat → Event)
    (l : List (Response → Except Exc (Option Response))) :
    ∀ (k : Nat) (r : Response),
    (∀ f ∈ l, ∀ x, ∃ y, f x = .ok (some y)) →
    ∃ r', chainLoop mk l k r = (.ok r', (List.range' k l.length).map mk) := by
  induction l with
  | nil => intro k r _; exact ⟨r, by simp [chainLoop]⟩
  | cons f rest ih =>
    intro k r hall
    rcases hall f (by simp) r with ⟨y, hy⟩
    rcases ih (k + 1) y (fun g hg => hall g (by simp [hg])) with ⟨r', hr'⟩
    exact ⟨r', by simp [chainLoop, hy, hr', List.range']⟩

theorem chainLoop_good_then_none (mk : Nat → Event)
    (pre : List (Response → Except Exc (Option Response))) :
    ∀ (h : Response → Except Exc (Option Response))
      (post : List (Response → Except Exc (Option Response)))
      (k : Nat) (r : Response),
    (∀ f ∈ pre, ∀ x, ∃ y, f x = .ok (some y)) →
    (∀ x, h x = .ok Option.none) →
    chainLoop mk (pre ++ h :: post) k r =
      (.error .valueError, (List.range' k (pre.length + 1)).map mk) := by
  induction pre with
  | nil =>
    intro h post k r _ hh
    simp [chainLoop, hh r, List.range']
  | cons f rest ih =>
    intro h post k r hall hh
    rcases hall f (by simp) r with ⟨y, hy⟩
    have := ih h post (k + 1) y (fun g hg => hall g (by simp [hg])) hh
    simp [chainLoop, hy, this, List.range']

theorem chainLoop_events (mk : Nat → Event)
    (l : List (Response → Except Exc (Option Response))) :
    ∀ (k : Nat) (r : Response) (ev : Event),
    ev ∈ (chainLoop mk l k r).2 → ∃ i, ev = mk i := by
  induction l with
  | nil => intro k r ev h; simp [chainLoop] at h
  | cons f rest ih =>
    intro k r ev h
    match hf : f r with
    | .error e => simp [chainLoop, hf] at h; exact ⟨k, h⟩
    | .ok Option.none => simp [chainLoop, hf] at h; exact ⟨k, h⟩
    | .ok (some r') =>
      simp [chainLoop, hf] at h
      rcases h with h | h
      · exact ⟨k, h⟩
      · exact ih (k + 1) r' ev h

/-! ## Event-safety lemmas: the later phases never invoke the resolver, a
view hook, the handler, or a request hook -/

theorem handle_uncaught_events {env : Env} {res : Resolver} {e : Exc}
    {ev : Event} (h : ev ∈ (handle_uncaught_exception env res e).2) :
    ev.isResolutionCall = false ∧ ev.isReqHook = false := by
  unfold handle_uncaught_exception at h
  split_ifs at h <;> simp at h <;>
    first
      | (subst h; constructor <;> rfl)
      | (rcases h with h | h <;> subst h <;> constructor <;> rfl)

theorem get_exception_response_events {env : Env} {res : Resolver}
    {code : Nat} {ev : Event}
    (h : ev ∈ (get_exception_response env res code).2) :
    ev.isResolutionCall = false ∧ ev.isReqHook = false := by
  unfold get_exception_response at h
  rcases hc : res.errorHandler code with e' | r <;> rw [hc] at h <;> simp at h
  · rcases h with h | h | h
    · subst h; constructor <;> rfl
    · subst h; constructor <;> rfl
    · exact handle_uncaught_events h
  · subst h; constructor <;> rfl

theorem translate_events {env : Env} {res : Resolver} {e : Exc}
    {ev : Event} (h : ev ∈ (translate env res e).2) :
    ev.isResolutionCall = false ∧ ev.isReqHook = false := by
  unfold translate at h
  rcases e <;> simp at h <;>
    try split_ifs at h <;> simp at h
  all_goals
    first
      | (subst h; exact ⟨rfl, rfl⟩)
      | (rcases h with h | h
         · subst h; exact ⟨rfl, rfl⟩
         · first
             | exact get_exception_response_events h
             | exact handle_uncaught_events h
             | (subst h; exact ⟨rfl, rfl⟩))

theorem renderPhase_events {env : Env} {req : Request} {r : Response}
    {ev : Event} (h : ev ∈ (renderPhase env req r).2) :
    ev.isResolutionCall = false ∧ ev.isReqHook = false := by
  unfold renderPhase at h
  split_ifs at h
  · rcases ht : runTmplHooks env req r with ⟨x, t⟩
    rw [ht] at h
    have htev : ∀ ev' ∈ t, ∃ i, ev' = Event.tmplHook i := by
      intro ev' hev'
      exact chainLoop_events _ _ _ _ _ (by rw [show t = (runTmplHooks env req r).2 from by rw [ht]] at hev'; exact hev')
    rcases x with e' | r' <;> simp at h
    · rcases htev ev h with ⟨i, rfl⟩; constructor <;> rfl
    · rcases hr : env.render req r' with e2 | r2 <;> rw [hr] at h <;> simp at h <;>
        rcases h with h | h
      · rcases htev ev h with ⟨i, rfl⟩; constructor <;> rfl
      · subst h; constructor <;> rfl
      · rcases htev ev h with ⟨i, rfl⟩; constructor <;> rfl
      · subst h; constructor <;> rfl
  · simp at h

theorem responsePhase_events {env : Env} {req : Request} {res : Resolver}
    {r : Response} {ev : Event} (h : ev ∈ (responsePhase env req res r).2) :
    ev.isResolutionCall = false ∧ ev.isReqHook = false := by
  unfold responsePhase at h
  rcases ht : runRespHooks env req r with ⟨x, t⟩
  rw [ht] at h
  have htev : ∀ ev' ∈ t, ∃ i, ev' = Event.respHook i := by
    intro ev' hev'
    exact chainLoop_events _ _ _ _ _ (by rw [show t = (runRespHooks env req r).2 from by rw [ht]] at hev'; exact hev')
  rcases x with e' | r' <;> simp at h
  · rcases h with h | h | h
    · rcases htev ev h with ⟨i, rfl⟩; constructor <;> rfl
    · subst h; constructor <;> rfl
    · exact handle_uncaught_events h
  · rcases htev ev h with ⟨i, rfl⟩; constructor <;> rfl

theorem finishResponse_events {env : Env} {req : Request} {res : Resolver}
    {x : Except Exc Response} {t : List Event} {ev : Event}
    (h : ev ∈ (finishResponse env req res (x, t)).2) :
    ev ∈ t ∨ (ev.isResolutionCall = false ∧ ev.isReqHook = false) := by
  rcases x with e | r
  · rcases htr : translate env res e with ⟨o, t2⟩
    have ht2 : ∀ ev' ∈ t2, ev'.isResolutionCall = false ∧ ev'.isReqHook = false := by
      intro ev' hev'
      exact translate_events (by rw [htr]; exact hev')
    rcases o with r | r | e' <;> simp only [finishResponse, htr] at h <;>
      simp at h
    · rcases h with h | h
      · exact Or.inl h
      · exact Or.inr (ht2 ev h)
    · rcases h with h | h | h
      · exact Or.inl h
      · exact Or.inr (ht2 ev h)
      · exact Or.inr (responsePhase_events h)
    · rcases h with h | h
      · exact Or.inl h
      · exact Or.inr (ht2 ev h)
  · simp only [finishResponse] at h
    simp at h
    rcases h with h | h
    · exact Or.inl h
    · exact Or.inr (responsePhase_events h)

/-! ## Helper lemmas about the response fixes -/

theorem absolutize_absolutize (req : Request) (l : Location) :
    absolutize req (absolutize req l) = absolutize req l := by
  cases l <;> rfl

theorem conditional_content_removal_location (req : Request) (r : Response) :
    (conditional_content_removal req r).location = r.location := by
  cases r
  simp only [conditional_content_removal]
  split_ifs <;> rfl

theorem conditional_content_removal_status (req : Request) (r : Response) :
    (conditional_content_removal req r).status = r.status := by
  cases r
  simp only [conditional_content_removal]
  split_ifs <;> rfl

theorem conditional_content_removal_idem (req : Request) (r : Response) :
    conditional_content_removal req (conditional_content_removal req r) =
      conditional_content_removal req r := by
  cases r
  simp only [conditional_content_removal]
  split_ifs <;> simp_all

theorem fix_location_header_fixed (req : Request) (r : Response)
    (h : ∀ l, r.location = some l → absolutize req l = l) :
    fix_location_header req r = r := by
  cases r with
  | mk truthy status hasRender location content =>
    cases location with
    | none => rfl
    | some l =>
      simp only [fix_location_header]
      simp [h l rfl]

theorem fix_location_header_location (req : Request) (r : Response) :
    (fix_location_header req r).location = r.location.map (absolutize req) := by
  cases r with
  | mk truthy status hasRender location content =>
    cases location <;> rfl

/-! ## Helper lemmas about `load_middleware` -/

theorem reverse_if_singleton (c : Prop) [Decidable c] (i : Nat) :
    (if c then [i] else ([] : List Nat)).reverse = if c then [i] else [] := by
  split <;> rfl

theorem loadAux_success (cfg : List MwDef) :
    ∀ (i : Nat) (sr : Option (List Nat)) (lv lt lp le acc : List Nat),
    (∀ m ∈ cfg, m.importOk = true) →
    (loadAux cfg i ⟨sr, some lv, some lt, some lp, some le⟩ acc).2.1 = true ∧
    (loadAux cfg i ⟨sr, some lv, some lt, some lp, some le⟩ acc).2.2 =
      ⟨some (acc ++ configOrderIds (fun m => m.hasReq) cfg i),
       some (lv ++ configOrderIds (fun m => m.hasView) cfg i),
       some ((configOrderIds (fun m => m.hasTmpl) cfg i).reverse ++ lt),
       some ((configOrderIds (fun m => m.hasResp) cfg i).reverse ++ lp),
       some ((configOrderIds (fun m => m.hasExc) cfg i).reverse ++ le)⟩ := by
  induction cfg with
  | nil =>
    intro i sr lv lt lp le acc _
    simp [loadAux, configOrderIds]
  | cons m rest ih =>
    intro i sr lv lt lp le acc hall
    have him : m.importOk = true := hall m (by simp)
    have hrest : ∀ m' ∈ rest, m'.importOk = true :=
      fun m' hm' => hall m' (by simp [hm'])
    by_cases hnu : m.notUsed = true
    · have := ih (i + 1) sr lv lt lp le acc hrest
      simp [loadAux, him, mwApply, mwReqAdd, hnu, configOrderIds, this]
    · rw [Bool.not_eq_true] at hnu
      have := ih (i + 1) sr (lv ++ if m.hasView then [i] else [])
        ((if m.hasTmpl then [i] else []) ++ lt)
        ((if m.hasResp then [i] else []) ++ lp)
        ((if m.hasExc then [i] else []) ++ le)
        (acc ++ if m.hasReq then [i] else []) hrest
      simp [loadAux, him, mwApply, mwReqAdd, hnu, configOrderIds, this,
        List.append_assoc, List.reverse_append, reverse_if_singleton]

theorem configOrderIds_congr (p q : MwDef → Bool) (cfg : List MwDef) :
    ∀ i, (∀ m ∈ cfg, p m = q m) →
    configOrderIds p cfg i = configOrderIds q cfg i := by
  induction cfg with
  | nil => intro i _; rfl
  | cons m rest ih =>
    intro i hall
    have hm : p m = q m := hall m (by simp)
    have := ih (i + 1) (fun m' hm' => hall m' (by simp [hm']))
    simp [configOrderIds, hm, this]

theorem loadAux_requestMw_none (cfg : List MwDef) :
    ∀ (i : Nat) (s : HandlerMwState) (acc : List Nat),
    s.requestMw = Option.none →
    ∀ x ∈ (loadAux cfg i s acc).1,
      x.requestMw = Option.none ∨
      ((loadAux cfg i s acc).2.1 = true ∧ x = (loadAux cfg i s acc).2.2) := by
  induction cfg with
  | nil =>
    intro i s acc _ x hx
    simp [loadAux] at hx
    exact Or.inr ⟨rfl, by simp [loadAux, hx]⟩
  | cons m rest ih =>
    intro i s acc hs x hx
    by_cases him : m.importOk = true
    · simp [loadAux, him] at hx
      have hs' : (mwApply i m s).requestMw = Option.none := by
        unfold mwApply
        split <;> simp [hs]
      rcases hx with hx | hx
      · exact Or.inl (by simp [hx, hs'])
      · rcases ih (i + 1) (mwApply i m s) (mwReqAdd i m acc) hs' x hx with h | ⟨h1, h2⟩
        · exact Or.inl h
        · exact Or.inr ⟨by simp [loadAux, him, h1], by simp [loadAux, him, h2]⟩
    · simp [loadAux, him] at hx

theorem loadAux_final_requestMw (cfg : List MwDef) :
    ∀ (i : Nat) (s : HandlerMwState) (acc : List Nat),
    (loadAux cfg i s acc).2.1 = true →
    ∃ l, (loadAux cfg i s acc).2.2.requestMw = some l := by
  induction cfg with
  | nil => intro i s acc _; exact ⟨acc, by simp [loadAux]⟩
  | cons m rest ih =>
    intro i s acc hok
    by_cases him : m.importOk = true
    · simp [loadAux, him] at hok ⊢
      exact ih (i + 1) _ _ hok
    · simp [loadAux, him] at hok

/-! ## Claim theorems -/

/-- C9: for every request and response, applying the fixed post-processing
transform sequence a second time to an already-fixed response produces no
further change: `apply_response_fixes` is idempotent. -/
theorem c9_response_fixes_idempotent (req : Request) (r : Response) :
    apply_response_fixes req (apply_response_fixes req r) =
      apply_response_fixes req r := by
  have hfold : ∀ x, apply_response_fixes req x =
      conditional_content_removal req (fix_location_header req x) := fun x => rfl
  have hfix : ∀ l,
      (conditional_content_removal req (fix_location_header req r)).location = some l →
      absolutize req l = l := by
    intro l hl
    rw [conditional_content_removal_location, fix_location_header_location] at hl
    rcases hloc : r.location with _ | l0 <;> rw [hloc] at hl <;> simp at hl
    subst hl
    exact absolutize_absolutize req l0
  rw [hfold r, hfold (conditional_content_removal req (fix_location_header req r)),
    fix_location_header_fixed req _ hfix,
    conditional_content_removal_idem req (fix_location_header req r)]

/-- C2: for every configuration whose middleware all import successfully,
`load_middleware` places request-hooks and view-hooks in configuration
order and template-response-, response- and exception-hooks in exactly the
reverse of configuration order; when hook presence matches, response-hooks
are the exact reverse of request-hooks (wrap/unwrap symmetry). -/
theorem c2_middleware_ordering (cfg : List MwDef)
    (hall : ∀ m ∈ cfg, m.importOk = true) :
    ∃ hs, load_middleware cfg = some hs ∧
      hs.requestMw = configOrderIds (fun m => m.hasReq) cfg 0 ∧
      hs.viewMw = configOrderIds (fun m => m.hasView) cfg 0 ∧
      hs.templateMw = (configOrderIds (fun m => m.hasTmpl) cfg 0).reverse ∧
      hs.responseMw = (configOrderIds (fun m => m.hasResp) cfg 0).reverse ∧
      hs.exceptionMw = (configOrderIds (fun m => m.hasExc) cfg 0).reverse ∧
      ((∀ m ∈ cfg, m.hasReq = m.hasResp) →
        hs.responseMw = hs.requestMw.reverse) := by
  have h := loadAux_success cfg 0 Option.none [] [] [] [] [] hall
  rw [show (⟨Option.none, some [], some [], some [], some []⟩ : HandlerMwState) =
      resetState from rfl] at h
  rcases hL : loadAux cfg 0 resetState [] with ⟨tr, ok, fin⟩
  rw [hL] at h
  obtain ⟨hok, hfin⟩ := h
  simp at hok hfin
  subst hok
  refine ⟨⟨configOrderIds (fun m => m.hasReq) cfg 0,
           configOrderIds (fun m => m.hasView) cfg 0,
           (configOrderIds (fun m => m.hasTmpl) cfg 0).reverse,
           (configOrderIds (fun m => m.hasResp) cfg 0).reverse,
           (configOrderIds (fun m => m.hasExc) cfg 0).reverse⟩,
         ?_, rfl, rfl, rfl, rfl, rfl, ?_⟩
  · simp [load_middleware, hL, hfin]
  · intro hrr
    simp only
    rw [configOrderIds_congr (fun m => m.hasResp) (fun m => m.hasReq) cfg 0
      (fun m hm => (hrr m hm).symm)]

/-- Witness for C2 at a concrete two-middleware configuration with all
five hooks each. -/
theorem c2_middleware_ordering_witness :
    (∀ m ∈ cfgC2, m.importOk = true) ∧
    (∃ hs, load_middleware cfgC2 = some hs ∧
      hs.requestMw = configOrderIds (fun m => m.hasReq) cfgC2 0 ∧
      hs.viewMw = configOrderIds (fun m => m.hasView) cfgC2 0 ∧
      hs.templateMw = (configOrderIds (fun m => m.hasTmpl) cfgC2 0).reverse ∧
      hs.responseMw = (configOrderIds (fun m => m.hasResp) cfgC2 0).reverse ∧
      hs.exceptionMw = (configOrderIds (fun m => m.hasExc) cfgC2 0).reverse ∧
      ((∀ m ∈ cfgC2, m.hasReq = m.hasResp) →
        hs.responseMw = hs.requestMw.reverse)) :=
  ⟨by decide, c2_middleware_ordering cfgC2 (by decide)⟩

/-- C8 counterexample: during `load_middleware` on a two-middleware
configuration, the handler is observable in a state whose view-hook list
holds only the first middleware's hook while the final list holds both —
so a hook list IS visible containing only some of the hooks it will
finally contain, refuting the claim as stated (only the request-hook list
is published atomically at the end). -/
theorem c8_counterexample :
    midStateC8 ∈ loadTrace cfgC8 ∧
    midStateC8.viewMw = some [0] ∧
    (load_middleware cfgC8).map HookSet.viewMw = some [0, 1] := by
  refine ⟨?_, rfl, rfl⟩
  show midStateC8 ∈ loadTrace cfgC8
  decide

/-- C8 (amended): only the request-hook list serves as the
published-when-complete flag: in every state observable during
`load_middleware`, `_request_middleware` is either still unset or already
equal to its final, complete value; the other four hook lists are built
incrementally in place and can be observed partially built. -/
theorem c8_request_list_published_last (cfg : List MwDef)
    (s : HandlerMwState) (hmem : s ∈ loadTrace cfg) :
    s.requestMw = Option.none ∨
    ∃ hk, load_middleware cfg = some hk ∧ s.requestMw = some hk.requestMw := by
  simp [loadTrace] at hmem
  rcases hmem with rfl | rfl | hmem
  · exact Or.inl rfl
  · exact Or.inl rfl
  · rcases loadAux_requestMw_none cfg 0 resetState [] rfl s hmem with h | ⟨hok, rfl⟩
    · exact Or.inl h
    · right
      obtain ⟨l, hl⟩ := loadAux_final_requestMw cfg 0 resetState [] hok
      rcases hfin : loadAux cfg 0 resetState [] with ⟨tr, ok, fin⟩
      rw [hfin] at hok hl
      have hok' : ok = true := hok
      have hl' : fin.requestMw = some l := hl
      subst hok'
      refine ⟨⟨fin.requestMw.getD [], fin.viewMw.getD [], fin.templateMw.getD [],
               fin.responseMw.getD [], fin.exceptionMw.getD []⟩, ?_, ?_⟩
      · simp [load_middleware, hfin]
      · simp [hl']

/-- Witness for C8 (amended) at the concrete configuration `cfgC8` and
the partially built state. -/
theorem c8_request_list_published_last_witness :
    midStateC8 ∈ loadTrace cfgC8 ∧
    (midStateC8.requestMw = Option.none ∨
     ∃ hk, load_middleware cfgC8 = some hk ∧
       midStateC8.requestMw = some hk.requestMw) :=
  ⟨by decide, c8_request_list_published_last cfgC8 midStateC8 (by decide)⟩

/-- C5 counterexample: with the propagate-exceptions flag set, the
translator re-raises WITHOUT any error-severity log — but the claim
asserts logging happens first and then the propagate branch is taken. -/
theorem c5_counterexample :
    handle_uncaught_exception envC5 stdResolver (Exc.other 0) =
      (.error (Exc.other 0), []) ∧
    Event.logErrorSev ∉ (handle_uncaught_exception envC5 stdResolver (Exc.other 0)).2 := by
  constructor
  · rfl
  · decide

/-- C5 (amended): when the propagate-exceptions flag is set the translator
re-raises immediately without logging; otherwise it logs at error severity
and then returns the debug diagnostic with status 500, or re-raises the
original exception when no routing module is configured, or delegates to
the 500 error handler and returns that handler's result. -/
theorem c5_uncaught_translation (env : Env) (res : Resolver) (e : Exc) :
    (env.settings.debugPropagateExceptions = true →
      handle_uncaught_exception env res e = (.error e, [])) ∧
    (env.settings.debugPropagateExceptions = false →
      Event.logErrorSev ∈ (handle_uncaught_exception env res e).2 ∧
      (env.settings.debug = true →
        (handle_uncaught_exception env res e).1 = .ok (technical500Response 500)) ∧
      (env.settings.debug = false → res.urlconfModule = false →
        (handle_uncaught_exception env res e).1 = .error e) ∧
      (env.settings.debug = false → res.urlconfModule = true →
        (handle_uncaught_exception env res e).1 = res.errorHandler 500)) := by
  refine ⟨fun hp => by simp [handle_uncaught_exception, hp], fun hp => ?_⟩
  refine ⟨?_,
    fun hd => by simp [handle_uncaught_exception, hp, hd],
    fun hd hm => by simp [handle_uncaught_exception, hp, hd, hm],
    fun hd hm => by simp [handle_uncaught_exception, hp, hd, hm]⟩
  by_cases hd : env.settings.debug = true <;>
    by_cases hm : res.urlconfModule = true <;>
      simp [handle_uncaught_exception, hp, hd, hm]

/-- Witness for C5 (amended): in debug mode with propagate off, the
error-severity log event occurs and the diagnostic 500 is returned. -/
theorem c5_uncaught_translation_witness :
    Event.logErrorSev ∈ (handle_uncaught_exception envC5w stdResolver (Exc.other 0)).2 ∧
    (handle_uncaught_exception envC5w stdResolver (Exc.other 0)).1 =
      .ok (technical500Response 500) := by
  have h := (c5_uncaught_translation envC5w stdResolver (Exc.other 0)).2 rfl
  exact ⟨h.1, h.2.1 rfl⟩

/-- C7: for a NotFound failure, debug mode yields the technical 404
diagnostic and never calls the configured 404 handler; with debug off,
`resolve_error_handler(404)` is invoked exactly once and its handler's
response becomes the translation result. -/
theorem c7_not_found_translation (env : Env) (res : Resolver) :
    (env.settings.debug = true →
      (translate env res Exc.http404).1 = .cont technical404Response ∧
      (translate env res Exc.http404).2.count (Event.errHandlerCall 404) = 0) ∧
    (env.settings.debug = false →
      (translate env res Exc.http404).2.count (Event.errHandlerCall 404) = 1 ∧
      ∀ r, res.errorHandler 404 = .ok r →
        (translate env res Exc.http404).1 = .cont r) := by
  constructor
  · intro hd
    refine ⟨by simp [translate, hd], by simp [translate, hd]⟩
  · intro hd
    refine ⟨?_, ?_⟩
    · rcases hc : res.errorHandler 404 with e' | r
      · have hue0 : (handle_uncaught_exception env res e').2.count
            (Event.errHandlerCall 404) = 0 := by
          unfold handle_uncaught_exception
          split_ifs <;> simp [List.count_cons, List.count_nil]
        simp [translate, hd, get_exception_response, hc, List.count_cons,
          List.count_append, hue0]
      · simp [translate, hd, get_exception_response, hc, List.count_cons]
    · intro r hr
      simp [translate, hd, get_exception_response, hr, liftT]

/-- Witness for C7 at a concrete resolver, in both debug modes. -/
theorem c7_not_found_translation_witness :
    ((translate envC5w stdResolver Exc.http404).1 = .cont technical404Response ∧
     (translate envC5w stdResolver Exc.http404).2.count (Event.errHandlerCall 404) = 0) ∧
    ((translate baseEnv stdResolver Exc.http404).2.count (Event.errHandlerCall 404) = 1 ∧
     (translate baseEnv stdResolver Exc.http404).1 = .cont (handlerResp 404)) := by
  refine ⟨(c7_not_found_translation envC5w stdResolver).1 rfl, ?_⟩
  have h := (c7_not_found_translation baseEnv stdResolver).2 rfl
  exact ⟨h.1, h.2 (handlerResp 404) rfl⟩

/-- C4 counterexample: a SystemExit-equivalent raised by a response-hook is
caught by the response phase's bare `except:` and translated into the 500
error handler's response instead of propagating out of `get_response` —
refuting the claim that it is never translated at any pipeline state. -/
theorem c4_counterexample :
    (get_response envC4c reqW).1 = .ok (handlerResp 500) ∧
    (get_response envC4c reqW).1 ≠ .error Exc.systemExit := by
  have h1 : (get_response envC4c reqW).1 = .ok (handlerResp 500) := rfl
  refine ⟨h1, ?_⟩
  rw [h1]
  simp

/-- C4 (amended): a SystemExit-equivalent that escapes the dispatch phase
(request-hooks, resolution, view-hooks, handler, deferred rendering) is
re-raised by the translator, skipping all response hooks, and propagates
out of `get_response` unmodified; and when the handler raises it, no
exception-hook intercepts it (it is not an `Exception`).  A
SystemExit-equivalent raised by a response-hook, however, is caught by the
response phase's unconditional handler and translated. -/
theorem c4_system_exit_propagation :
    (∀ (env : Env) (req : Request) (d : Except Exc Response × Resolver × List Event),
      dispatchPhase env req = d → d.1 = .error Exc.systemExit →
      get_response env req = (.error Exc.systemExit, d.2.2)) ∧
    (∀ (env : Env) (req : Request) (rm : RouteMatch),
      rm.run req = .error Exc.systemExit →
      invokePhase env req rm = (.error Exc.systemExit, [Event.handlerCall])) := by
  constructor
  · intro env req d hd h1
    rcases d with ⟨x, res, t⟩
    simp at h1
    subst h1
    unfold get_response
    rw [hd]
    simp [finishResponse, translate]
  · intro env req rm hr
    unfold invokePhase
    rw [hr]
    simp [Exc.isException]

/-- Witness for C4 (amended): a request-hook raising the
SystemExit-equivalent propagates out of `get_response`, and a handler
raising it is not offered to exception hooks. -/
theorem c4_system_exit_propagation_witness :
    get_response envC4a reqW = (.error Exc.systemExit, [Event.reqHook 0]) ∧
    invokePhase envC6w reqW rmSysExit =
      (.error Exc.systemExit, [Event.handlerCall]) := by
  constructor
  · exact c4_system_exit_propagation.1 envC4a reqW (dispatchPhase envC4a reqW) rfl rfl
  · exact c4_system_exit_propagation.2 envC6w reqW rmSysExit rfl

/-- C6 counterexample: with a single exception hook returning a falsy
non-`None` value (an "empty" response), the original exception does NOT
propagate to failure translation — the falsy value becomes the response —
refuting the claim that the exception propagates whenever no hook returns
a non-empty response. -/
theorem c6_counterexample :
    isTruthy (some falsyR) = false ∧
    invokePhase envC6c reqW rmRaise7 =
      (.ok (some falsyR), [Event.handlerCall, Event.excHook 0]) := by
  constructor
  · rfl
  · rfl

/-- C6 (amended): when the handler raises an `Exception`, exception hooks
run in order and the first hook returning a truthy response ends the loop
with that response (later hooks are never invoked); when every exception
hook returns `None` (in particular when there are none), the original
exception — classification unchanged — propagates to failure translation.
A falsy non-`None` return from the last hook instead becomes the
response. -/
theorem c6_exception_hooks (env : Env) (req : Request) (rm : RouteMatch)
    (e : Exc) :
    (∀ (pre post : List (Request → Exc → Except Exc (Option Response)))
       (h : Request → Exc → Except Exc (Option Response)) (r : Response),
      rm.run req = .error e → e.isException = true →
      env.exceptionMw = pre ++ h :: post →
      (∀ g ∈ pre, ∃ v, g req e = .ok v ∧ isTruthy v = false) →
      h req e = .ok (some r) → r.truthy = true →
      invokePhase env req rm =
        (.ok (some r),
         Event.handlerCall ::
           ((List.range' 0 pre.length).map Event.excHook ++
             [Event.excHook pre.length]))) ∧
    (rm.run req = .error e → e.isException = true →
      (∀ g ∈ env.exceptionMw, g req e = .ok Option.none) →
      invokePhase env req rm =
        (.error e,
         Event.handlerCall ::
           (List.range' 0 env.exceptionMw.length).map Event.excHook)) := by
  constructor
  · intro pre post h r hrun hex hmw hpre hh htr
    have hrunexc : runExcHooks env req e =
        (.ok (some r),
         (List.range' 0 pre.length).map Event.excHook ++
           [Event.excHook pre.length]) := by
      unfold runExcHooks
      rw [hmw]
      have hmap : (pre ++ h :: post).map (fun g => g req e) =
          pre.map (fun g => g req e) ++ (h req e) :: post.map (fun g => g req e) := by
        simp
      rw [hmap]
      obtain ⟨acc', heq⟩ := breakLoop_falsy_prefix Event.excHook
        (pre.map (fun g => g req e)) ((h req e) :: post.map (fun g => g req e))
        0 Option.none
        (by intro x hx
            rcases List.mem_map.mp hx with ⟨g, hg, rfl⟩
            exact hpre g hg)
      rw [heq]
      have hhead : breakLoop Event.excHook
          ((h req e) :: post.map (fun g => g req e))
          (0 + (pre.map (fun g => g req e)).length) acc' =
          (.ok (some r), [Event.excHook pre.length]) := by
        simp [breakLoop, hh, isTruthy, htr]
      rw [hhead]
      simp
    unfold invokePhase
    rw [hrun]
    simp [hex, hrunexc]
  · intro hrun hex hall
    have hrunexc : runExcHooks env req e =
        (.ok Option.none,
         (List.range' 0 env.exceptionMw.length).map Event.excHook) := by
      unfold runExcHooks
      have := breakLoop_all_none Event.excHook
        (env.exceptionMw.map (fun g => g req e)) 0
        (by intro x hx
            rcases List.mem_map.mp hx with ⟨g, hg, rfl⟩
            exact hall g hg)
      simpa using this
    unfold invokePhase
    rw [hrun]
    simp [hex, hrunexc]

/-- Witness for C6 (amended): a truthy second exception hook wins after a
`None` first hook, and an all-`None` hook list re-raises the original
exception. -/
theorem c6_exception_hooks_witness :
    invokePhase envC6w reqW rmRaise7 =
      (.ok (some okR), [Event.handlerCall, Event.excHook 0, Event.excHook 1]) ∧
    invokePhase envC6n reqW rmRaise7 =
      (.error (Exc.other 7), [Event.handlerCall, Event.excHook 0]) := by
  constructor
  · exact (c6_exception_hooks envC6w reqW rmRaise7 (Exc.other 7)).1
      [fun _ _ => Except.ok Option.none] [] (fun _ _ => Except.ok (some okR)) okR
      rfl rfl rfl
      (by intro g hg
          simp at hg
          subst hg
          exact ⟨Option.none, rfl, rfl⟩)
      rfl rfl
  · exact (c6_exception_hooks envC6n reqW rmRaise7 (Exc.other 7)).2 rfl rfl
      (by intro g hg
          simp [envC6n, baseEnv] at hg
          subst hg
          rfl)

/-- C1: whenever the first truthy-returning request hook fires (all earlier
request hooks having returned falsy values), the engine invokes no later
request hook, never calls the resolver, runs no view hook and never
invokes the handler; processing continues at the deferred-rendering /
response phase with exactly that hook's response. -/
theorem c1_request_hook_short_circuit (env : Env) (req : Request)
    (pre post : List (Request → Except Exc (Option Response)))
    (h : Request → Except Exc (Option Response)) (r : Response)
    (hmw : env.requestMw = pre ++ h :: post)
    (hpre : ∀ g ∈ pre, ∃ v, g req = .ok v ∧ isTruthy v = false)
    (hh : h req = .ok (some r)) (htr : r.truthy = true) :
    (∀ ev ∈ (get_response env req).2,
      ev.isResolutionCall = false ∧ ∀ i, ev = Event.reqHook i → i ≤ pre.length) ∧
    get_response env req =
      finishResponse env req (env.resolverFor env.settings.rootUrlconf)
        ((renderPhase env req r).1,
         ((List.range' 0 pre.length).map Event.reqHook ++ [Event.reqHook pre.length])
           ++ (renderPhase env req r).2) := by
  have hrun : runReqHooks env req =
      (.ok (some r),
       (List.range' 0 pre.length).map Event.reqHook ++ [Event.reqHook pre.length]) := by
    unfold runReqHooks
    rw [hmw]
    have hmap : (pre ++ h :: post).map (fun g => g req) =
        pre.map (fun g => g req) ++ (h req) :: post.map (fun g => g req) := by
      simp
    rw [hmap]
    obtain ⟨acc', heq⟩ := breakLoop_falsy_prefix Event.reqHook
      (pre.map (fun g => g req)) ((h req) :: post.map (fun g => g req)) 0 Option.none
      (by intro x hx
          rcases List.mem_map.mp hx with ⟨g, hg, rfl⟩
          exact hpre g hg)
    rw [heq]
    have hhead : breakLoop Event.reqHook ((h req) :: post.map (fun g => g req))
        (0 + (pre.map (fun g => g req)).length) acc' =
        (.ok (some r), [Event.reqHook pre.length]) := by
      simp [breakLoop, hh, isTruthy, htr]
    rw [hhead]
    simp
  have hdp : dispatchPhase env req =
      ((renderPhase env req r).1, env.resolverFor env.settings.rootUrlconf,
       ((List.range' 0 pre.length).map Event.reqHook ++ [Event.reqHook pre.length])
         ++ (renderPhase env req r).2) := by
    unfold dispatchPhase
    rw [hrun]
  have hgr : get_response env req =
      finishResponse env req (env.resolverFor env.settings.rootUrlconf)
        ((renderPhase env req r).1,
         ((List.range' 0 pre.length).map Event.reqHook ++ [Event.reqHook pre.length])
           ++ (renderPhase env req r).2) := by
    unfold get_response
    rw [hdp]
  refine ⟨?_, hgr⟩
  intro ev hev
  rw [hgr] at hev
  rcases finishResponse_events hev with hmem | ⟨h1, h2⟩
  · rcases List.mem_append.mp hmem with hm | hm
    · rcases List.mem_append.mp hm with hm2 | hm2
      · rcases mem_range'_map hm2 with ⟨i, _, hilt, rfl⟩
        refine ⟨rfl, fun j hj => ?_⟩
        injection hj with hj
        omega
      · simp at hm2
        subst hm2
        exact ⟨rfl, fun j hj => by injection hj with hj; omega⟩
    · rcases renderPhase_events hm with ⟨h1, h2⟩
      refine ⟨h1, fun j hj => ?_⟩
      subst hj
      simp [Event.isReqHook] at h2
  · refine ⟨h1, fun j hj => ?_⟩
    subst hj
    simp [Event.isReqHook] at h2

/-- Witness for C1: first request hook returns `None`, second returns a
truthy response; the resolver would raise if it were called. -/
theorem c1_request_hook_short_circuit_witness :
    (∀ ev ∈ (get_response envC1 reqW).2,
      ev.isResolutionCall = false ∧ ∀ i, ev = Event.reqHook i → i ≤ 1) ∧
    get_response envC1 reqW =
      finishResponse envC1 reqW (envC1.resolverFor envC1.settings.rootUrlconf)
        ((renderPhase envC1 reqW okR).1,
         ((List.range' 0 1).map Event.reqHook ++ [Event.reqHook 1])
           ++ (renderPhase envC1 reqW okR).2) :=
  c1_request_hook_short_circuit envC1 reqW [hookNone] [] hookOk okR rfl
    (by intro g hg
        simp at hg
        subst hg
        exact ⟨Option.none, rfl, rfl⟩)
    rfl rfl

/-- C10: when every request hook returns a falsy value and the last one
returns a falsy value that is not `None`, the engine skips resolution,
view hooks and the handler without treating the value as a short-circuit
response, and that falsy non-`None` value itself proceeds to the
response-hook phase as the response (truthiness governs the short-circuit
break, while the continue-to-resolution test compares against `None`). -/
theorem c10_falsy_request_value (env : Env) (req : Request)
    (hs : List (Request → Except Exc (Option Response)))
    (g : Request → Except Exc (Option Response)) (r : Response)
    (hmw : env.requestMw = hs ++ [g])
    (hfalsy : ∀ f ∈ hs, ∃ v, f req = .ok v ∧ isTruthy v = false)
    (hg : g req = .ok (some r)) (htr : r.truthy = false)
    (hrender : r.hasRender = false) :
    (∀ ev ∈ (get_response env req).2, ev.isResolutionCall = false) ∧
    get_response env req =
      ((responsePhase env req (env.resolverFor env.settings.rootUrlconf) r).1,
       ((List.range' 0 hs.length).map Event.reqHook ++ [Event.reqHook hs.length])
         ++ (responsePhase env req (env.resolverFor env.settings.rootUrlconf) r).2) := by
  have hrun : runReqHooks env req =
      (.ok (some r),
       (List.range' 0 hs.length).map Event.reqHook ++ [Event.reqHook hs.length]) := by
    unfold runReqHooks
    rw [hmw]
    have hmap : (hs ++ [g]).map (fun f => f req) =
        hs.map (fun f => f req) ++ (g req) :: [] := by
      simp
    rw [hmap]
    obtain ⟨acc', heq⟩ := breakLoop_falsy_prefix Event.reqHook
      (hs.map (fun f => f req)) ((g req) :: []) 0 Option.none
      (by intro x hx
          rcases List.mem_map.mp hx with ⟨f, hf, rfl⟩
          exact hfalsy f hf)
    rw [heq]
    have hhead : breakLoop Event.reqHook ((g req) :: [])
        (0 + (hs.map (fun f => f req)).length) acc' =
        (.ok (some r), [Event.reqHook hs.length]) := by
      simp [breakLoop, hg, isTruthy, htr]
    rw [hhead]
    simp
  have hrp : renderPhase env req r = (.ok r, []) := by
    simp [renderPhase, hrender]
  have hdp : dispatchPhase env req =
      (.ok r, env.resolverFor env.settings.rootUrlconf,
       (List.range' 0 hs.length).map Event.reqHook ++ [Event.reqHook hs.length]) := by
    unfold dispatchPhase
    rw [hrun]
    simp [hrp]
  have hgr : get_response env req =
      ((responsePhase env req (env.resolverFor env.settings.rootUrlconf) r).1,
       ((List.range' 0 hs.length).map Event.reqHook ++ [Event.reqHook hs.length])
         ++ (responsePhase env req (env.resolverFor env.settings.rootUrlconf) r).2) := by
    unfold get_response
    rw [hdp]
    simp [finishResponse]
  refine ⟨?_, hgr⟩
  intro ev hev
  rw [hgr] at hev
  rcases List.mem_append.mp hev with hm | hm
  · rcases List.mem_append.mp hm with hm2 | hm2
    · rcases mem_range'_map hm2 with ⟨i, _, _, rfl⟩
      rfl
    · simp at hm2
      subst hm2
      rfl
  · exact (responsePhase_events hm).1

/-- Witness for C10: first request hook returns `None`, the second and
last returns a falsy non-`None` value. -/
theorem c10_falsy_request_value_witness :
    (∀ ev ∈ (get_response envC10 reqW).2, ev.isResolutionCall = false) ∧
    get_response envC10 reqW =
      ((responsePhase envC10 reqW (envC10.resolverFor envC10.settings.rootUrlconf) falsyR).1,
       ((List.range' 0 1).map Event.reqHook ++ [Event.reqHook 1])
         ++ (responsePhase envC10 reqW (envC10.resolverFor envC10.settings.rootUrlconf) falsyR).2) :=
  c10_falsy_request_value envC10 reqW [hookNone] hookFalsy falsyR rfl
    (by intro f hf
        simp at hf
        subst hf
        exact ⟨Option.none, rfl, rfl⟩)
    rfl rfl rfl

/-- C3: all response hooks run in order over every response entering the
response phase (also over failure-translated responses, see the third
conjunct); the first `None` return from a hook is converted into a fresh
`ValueError` and re-translated by `handle_uncaught_exception`, so with
propagate-exceptions off the final response has status 500 (via the debug
diagnostic or the configured 500 handler) instead of the empty-return
condition reaching the caller. -/
theorem c3_response_hooks (env : Env) (req : Request) (res : Resolver) :
    (∀ r : Response,
      (∀ f ∈ env.responseMw, ∀ x, ∃ y, f req x = .ok (some y)) →
      ∃ r', responsePhase env req res r =
        (.ok (apply_response_fixes req r'),
         (List.range' 0 env.responseMw.length).map Event.respHook)) ∧
    (∀ (r : Response)
       (pre post : List (Request → Response → Except Exc (Option Response)))
       (h : Request → Response → Except Exc (Option Response)),
      env.responseMw = pre ++ h :: post →
      (∀ f ∈ pre, ∀ x, ∃ y, f req x = .ok (some y)) →
      (∀ x, h req x = .ok Option.none) →
      responsePhase env req res r =
        ((handle_uncaught_exception env res Exc.valueError).1,
         ((List.range' 0 (pre.length + 1)).map Event.respHook) ++
           Event.signalSent :: (handle_uncaught_exception env res Exc.valueError).2) ∧
      (env.settings.debugPropagateExceptions = false → env.settings.debug = true →
        ∃ r5, (responsePhase env req res r).1 = .ok r5 ∧ r5.status = 500) ∧
      (∀ rh, env.settings.debugPropagateExceptions = false →
        env.settings.debug = false → res.urlconfModule = true →
        res.errorHandler 500 = .ok rh → rh.status = 500 →
        ∃ r5, (responsePhase env req res r).1 = .ok r5 ∧ r5.status = 500)) ∧
    (∀ (e : Exc) (r : Response) (t2 : List Event),
      (dispatchPhase env req).1 = .error e →
      translate env (dispatchPhase env req).2.1 e = (.cont r, t2) →
      get_response env req =
        ((responsePhase env req (dispatchPhase env req).2.1 r).1,
         (dispatchPhase env req).2.2 ++ t2 ++
           (responsePhase env req (dispatchPhase env req).2.1 r).2)) := by
  refine ⟨?_, ?_, ?_⟩
  · intro r hall
    obtain ⟨r', hr'⟩ := chainLoop_all_good Event.respHook
      (env.responseMw.map (fun f => f req)) 0 r
      (by intro f hf x
          rcases List.mem_map.mp hf with ⟨g, hg, rfl⟩
          exact hall g hg x)
    refine ⟨r', ?_⟩
    unfold responsePhase
    rw [show runRespHooks env req r =
        chainLoop Event.respHook (env.responseMw.map (fun f => f req)) 0 r from rfl]
    rw [hr']
    simp
  · intro r pre post h hmw hpre hnone
    have hrun : runRespHooks env req r =
        (.error .valueError,
         (List.range' 0 (pre.length + 1)).map Event.respHook) := by
      unfold runRespHooks
      rw [hmw]
      have hmap : (pre ++ h :: post).map (fun f => f req) =
          pre.map (fun f => f req) ++ (h req) :: post.map (fun f => f req) := by
        simp
      rw [hmap]
      have := chainLoop_good_then_none Event.respHook (pre.map (fun f => f req))
        (h req) (post.map (fun f => f req)) 0 r
        (by intro f hf x
            rcases List.mem_map.mp hf with ⟨g, hg, rfl⟩
            exact hpre g hg x)
        hnone
      simpa using this
    have heqn : responsePhase env req res r =
        ((handle_uncaught_exception env res Exc.valueError).1,
         ((List.range' 0 (pre.length + 1)).map Event.respHook) ++
           Event.signalSent :: (handle_uncaught_exception env res Exc.valueError).2) := by
      unfold responsePhase
      rw [hrun]
    refine ⟨heqn, ?_, ?_⟩
    · intro hp hd
      refine ⟨technical500Response 500, ?_, rfl⟩
      rw [heqn]
      simp [handle_uncaught_exception, hp, hd]
    · intro rh hp hd hm hok h500
      refine ⟨rh, ?_, h500⟩
      rw [heqn]
      simp [handle_uncaught_exception, hp, hd, hm, hok]
  · intro e r t2 h1 htr2
    unfold get_response
    rcases hdp : dispatchPhase env req with ⟨x, res', t⟩
    rw [hdp] at h1 htr2
    have h1' : x = Except.error e := h1
    subst h1'
    have htr2' : translate env res' e = (TOut.cont r, t2) := htr2
    simp [finishResponse, htr2']

/-- Witness for C3: two well-behaved response hooks all run; a `None`
return from the second hook in debug mode yields a 500 diagnostic. -/
theorem c3_response_hooks_witness :
    (∃ r', responsePhase envC3a reqW stdResolver okR =
      (.ok (apply_response_fixes reqW r'),
       (List.range' 0 envC3a.responseMw.length).map Event.respHook)) ∧
    (∃ r5, (responsePhase envC3b reqW stdResolver okR).1 = .ok r5 ∧
      r5.status = 500) := by
  constructor
  · exact (c3_response_hooks envC3a reqW stdResolver).1 okR
      (by intro f hf x
          simp [envC3a, baseEnv] at hf
          rcases hf with hf | hf <;> subst hf
          · exact ⟨{ x with content := "a" }, rfl⟩
          · exact ⟨{ x with content := "b" }, rfl⟩)
  · have h := (c3_response_hooks envC3b reqW stdResolver).2.1 okR
      [fun _ x => Except.ok (some { x with content := "a" })] []
      (fun _ _ => Except.ok Option.none) rfl
      (by intro f hf x
          simp at hf
          subst hf
          exact ⟨{ x with content := "a" }, rfl⟩)
      (fun _ => rfl)
    exact h.2.1 rfl rfl

end CommentDjango
